import Mathlib

/-!
# Verification of the chaeban-business-automation inventory pipeline

Shallow embedding of the inventory modules of the repository:

* `modules/inventory/dataProcessor` (`processInventoryItems`,
  `processInventoryItem`, `calculateTotalValue`),
* `modules/inventory/sosApi` (`fetchInventoryPage` error handling),
* `modules/production/processApi` (`fetchProcessTransactions` loop step),
* `modules/inventory/firestoreWriter` (`writeInventorySnapshot`,
  `markCurrentItemsAsArchived`, `getCurrentInventoryData`).

JavaScript numbers are modelled as rationals (`ℚ`); raw numeric fields are
`Option ℚ`, with `none` standing for a missing field or a value on which
`parseFloat` yields `NaN`.  Loosely-typed JS fields are modelled by `JVal`.
The Firestore document store is modelled as association lists keyed by
document id.
-/

set_option autoImplicit false

namespace Chaeban

/-- A JavaScript runtime value for loosely-typed fields (`id`, `sku`,
`category`, ...): `jnull` covers `null`/`undefined`/missing, `jstr` a string,
`jnum` a number, `jobj` any other (truthy) object. -/
inductive JVal where
  | jnull
  | jstr (s : String)
  | jnum (q : ℚ)
  | jobj
deriving DecidableEq, Repr

/-- JS truthiness: `null`/`undefined`, `""` and `0` are falsy. -/
def JVal.truthy : JVal → Bool
  | .jnull => false
  | .jstr s => !(s == "")
  | .jnum q => !(q == 0)
  | .jobj => true

/-- `a || b` on JS values. -/
def jsOr (a b : JVal) : JVal := if a.truthy then a else b

/-- `parseFloat(v) || 0`: a missing/unparseable value yields `0`; on a parsed
number the `|| 0` only maps `0` (and `NaN`, covered by `none`) to `0`. -/
def parseNumOr0 : Option ℚ → ℚ
  | none => 0
  | some q => q

/-- The five `INVENTORY_STATUS` values from `shared/config.js`. -/
inductive InvStatus where
  | OK
  | NEGATIVE_QUANTITY
  | NEGATIVE_AVAILABLE
  | NEGATIVE_VALUE
  | NO_COST_BASIS
deriving DecidableEq, Repr

/-- The `_id_source` tag of a processed item. -/
inductive IdSource where
  | original_id
  | sku
  | generated
deriving DecidableEq, Repr

/-- A raw SOS inventory item as consumed by `processInventoryItem`. -/
structure RawItem where
  id : JVal := .jnull
  sku : JVal := .jnull
  name : JVal := .jnull
  fullname : JVal := .jnull
  category : JVal := .jnull
  onhand : Option ℚ := none
  available : Option ℚ := none
  costBasis : Option ℚ := none
deriving DecidableEq, Repr

/-- One base-36 digit, as in JS `Number.prototype.toString(36)`. -/
def base36Char (n : Nat) : Char :=
  if n < 10 then Char.ofNat (48 + n) else Char.ofNat (87 + n)

/-- `n.toString(36)` for a natural number. -/
def toBase36 (n : Nat) : String :=
  if n < 36 then String.mk [base36Char n]
  else toBase36 (n / 36) ++ String.mk [base36Char (n % 36)]
decreasing_by exact Nat.div_lt_self (by omega) (by omega)

/-- JS `String.prototype.trim`: strip leading and trailing whitespace
(structural model over the character list). -/
def jsTrim (s : String) : String :=
  String.mk (((s.data.dropWhile Char.isWhitespace).reverse.dropWhile
    Char.isWhitespace).reverse)

/-- Characters admitted by the sanitizing regex `[^a-zA-Z0-9_-]`. -/
def isIdChar (c : Char) : Bool :=
  (97 ≤ c.toNat && c.toNat ≤ 122) || (65 ≤ c.toNat && c.toNat ≤ 90) ||
    (48 ≤ c.toNat && c.toNat ≤ 57) || c == '_' || c == '-'

/-- `itemId.replace(/[^a-zA-Z0-9_-]/g, '_')`, one character at a time. -/
def sanitizeChar (c : Char) : Char := if isIdChar c then c else '_'

/-- Sanitize a document id to be Firestore-safe. -/
def sanitizeId (s : String) : String := String.mk (s.data.map sanitizeChar)

/-- The guard `v && typeof v === 'string' && v.trim() !== ''`, returning the
trimmed string when it passes. -/
def trimmedStr? : JVal → Option String
  | .jstr s => if s ≠ "" ∧ jsTrim s ≠ "" then some (jsTrim s) else none
  | _ => none

/-- Identifier assignment of `processInventoryItem` (before sanitizing):
trimmed source id, else `sku_<trimmed sku>`, else a generated id from the
base-36 timestamp and a random suffix. -/
def deriveItemId (rawItem : RawItem) (timestamp : Nat) (rand : String) : String :=
  match trimmedStr? rawItem.id with
  | some tid => tid
  | none =>
    match trimmedStr? rawItem.sku with
    | some tsku => "sku_" ++ tsku
    | none => "item_" ++ toBase36 timestamp ++ "_" ++ rand

/-- Shallow model of JS `Number.prototype.toString` on a category value:
integers render without a fractional part. -/
def jsNumToString (q : ℚ) : String :=
  if q.den = 1 then toString q.num else toString q

/-- The category block of `processInventoryItem`: `''` unless the raw
category is truthy; a truthy string is trimmed, a truthy number stringified,
any other truthy value becomes `"Uncategorized"`. -/
def deriveCategory (category : JVal) : String :=
  if category.truthy then
    match category with
    | .jstr s => jsTrim s
    | .jnum q => jsNumToString q
    | _ => "Uncategorized"
  else ""

/-- The status classification of `processInventoryItem` (first match wins). -/
def classifyStatus (onHand available costBasis : ℚ) : InvStatus :=
  if onHand < 0 then .NEGATIVE_QUANTITY
  else if available < 0 then .NEGATIVE_AVAILABLE
  else if costBasis < 0 then .NEGATIVE_VALUE
  else if onHand > 0 ∧ costBasis ≤ 0 then .NO_COST_BASIS
  else .OK

/-- The average-cost rule of `processInventoryItem`. -/
def averageCost (onHand costBasis : ℚ) : ℚ :=
  if onHand > 0 ∧ costBasis > 0 then costBasis / onHand else 0

/-- A processed inventory item in the standardized format returned by
`processInventoryItem` (the `_raw_*` debug fields are kept without the
underscore prefix). -/
structure ProcessedItem where
  item_id : String
  sku : JVal
  name : JVal
  full_name : JVal
  qty_on_hand : ℚ
  qty_available : ℚ
  cost_basis : ℚ
  average_cost : ℚ
  category : String
  status : InvStatus
  last_updated : Nat
  raw_onhand : Option ℚ
  raw_available : Option ℚ
  raw_costBasis : Option ℚ
  raw_id : JVal
  raw_category : JVal
  id_source : IdSource
deriving DecidableEq, Repr

/-- `processInventoryItem(rawItem, timestamp)` from the data-processing
module.  `rand` stands for the `Math.random().toString(36).substring(2, 8)`
suffix of a generated id.  The `none` branch is the source's validation
`if (!itemId || ... || itemId.trim() === '') throw`. -/
def processInventoryItem (rawItem : RawItem) (timestamp : Nat) (rand : String) :
    Option ProcessedItem :=
  let onHand := parseNumOr0 rawItem.onhand
  let available := parseNumOr0 rawItem.available
  let costBasis := parseNumOr0 rawItem.costBasis
  let itemId0 := deriveItemId rawItem timestamp rand
  if itemId0 = "" ∨ jsTrim itemId0 = "" then none
  else
    some {
      item_id := sanitizeId itemId0
      sku := jsOr rawItem.sku (.jstr "")
      name := jsOr rawItem.name (.jstr "")
      full_name := jsOr rawItem.fullname (jsOr rawItem.name (.jstr ""))
      qty_on_hand := onHand
      qty_available := available
      cost_basis := costBasis
      average_cost := averageCost onHand costBasis
      category := deriveCategory rawItem.category
      status := classifyStatus onHand available costBasis
      last_updated := timestamp
      raw_onhand := rawItem.onhand
      raw_available := rawItem.available
      raw_costBasis := rawItem.costBasis
      raw_id := jsOr rawItem.id .jnull
      raw_category := jsOr rawItem.category .jnull
      id_source :=
        if rawItem.id.truthy then .original_id
        else if rawItem.sku.truthy then .sku
        else .generated }

/-- The per-status counters accumulated by `processInventoryItems`. -/
structure StatusCounts where
  ok : Nat := 0
  negative_quantity : Nat := 0
  negative_available : Nat := 0
  negative_value : Nat := 0
  no_cost_basis : Nat := 0
deriving DecidableEq, Repr

/-- `statusCounts[processedItem.status]++`. -/
def StatusCounts.bump (c : StatusCounts) : InvStatus → StatusCounts
  | .OK => { c with ok := c.ok + 1 }
  | .NEGATIVE_QUANTITY => { c with negative_quantity := c.negative_quantity + 1 }
  | .NEGATIVE_AVAILABLE => { c with negative_available := c.negative_available + 1 }
  | .NEGATIVE_VALUE => { c with negative_value := c.negative_value + 1 }
  | .NO_COST_BASIS => { c with no_cost_basis := c.no_cost_basis + 1 }

/-- `calculateTotalValue`: sum of `item.cost_basis || 0` over processed
items (on a number, `|| 0` is the identity). -/
def calculateTotalValue (processedItems : List ProcessedItem) : ℚ :=
  processedItems.foldl (fun total item => total + item.cost_basis) 0

/-- The result object of `processInventoryItems` (`items` plus `summary`). -/
structure ProcessOutcome where
  items : List ProcessedItem
  total_items : Nat
  total_value : ℚ
  status_counts : StatusCounts
  invalid_items_count : Nat
deriving DecidableEq, Repr

/-- A JS argument that may fail the `Array.isArray` check; array elements may
be `null`/`undefined` (`none`). -/
inductive JSArrayInput (α : Type) where
  | notArray
  | arr (xs : List (Option α))

/-- The per-element body of the `for (const rawItem of rawItems)` loop:
`none` when the element is skipped as invalid (null element, missing both id
and sku, or `processInventoryItem` returning null). -/
def processElement (timestamp : Nat) (randStr : String) :
    Option RawItem → Option ProcessedItem
  | none => none
  | some r =>
    if r.id.truthy = false ∧ r.sku.truthy = false then none
    else processInventoryItem r timestamp randStr

/-- The processing loop of `processInventoryItems`, returning the processed
items in order, the status counters, and the invalid-item count.  `i` is the
index used to pick the per-item random suffix. -/
def processLoop (timestamp : Nat) (rand : Nat → String) :
    List (Option RawItem) → Nat → List ProcessedItem × StatusCounts × Nat
  | [], _ => ([], {}, 0)
  | o :: rest, i =>
    let tail := processLoop timestamp rand rest (i + 1)
    match processElement timestamp (rand i) o with
    | some p => (p :: tail.1, (tail.2.1).bump p.status, tail.2.2)
    | none => (tail.1, tail.2.1, tail.2.2 + 1)

/-- Declarative form of the loop: the successfully processed subset. -/
def processedOf (timestamp : Nat) (rand : Nat → String)
    (xs : List (Option RawItem)) : List ProcessedItem :=
  (xs.enumFrom 0).filterMap (fun p => processElement timestamp (rand p.1) p.2)

/-- `processInventoryItems(rawItems, fetchTimestamp)`: throws on a non-array
input, an empty input, or when no item survives processing; otherwise
returns the processed subset with the summary. -/
def processInventoryItems (input : JSArrayInput RawItem) (timestamp : Nat)
    (rand : Nat → String) : Except String ProcessOutcome :=
  match input with
  | .notArray => .error "Expected array of items"
  | .arr [] => .error "No items to process"
  | .arr rawItems =>
    let r := processLoop timestamp rand rawItems 0
    if r.1 = [] then .error "No valid items were processed"
    else
      .ok {
        items := r.1
        total_items := r.1.length
        total_value := calculateTotalValue r.1
        status_counts := r.2.1
        invalid_items_count := r.2.2 }

/-! ## Remote API client (`sosApi.js`, `processApi.js`) -/

/-- `SOS_CONFIG.THROTTLE_WAIT_MS` from `shared/config.js`. -/
def THROTTLE_WAIT_MS : Nat := 30000

/-- `SOS_CONFIG.PAGE_SIZE` from `shared/config.js`. -/
def PAGE_SIZE : Nat := 500

/-- `SOS_CONFIG.BATCH_SIZE` from `shared/config.js`. -/
def BATCH_SIZE : Nat := 250

/-- The response the remote API gives to one page request: a 200 response
with a data payload, another 2xx response, an HTTP error status, or a
network error. -/
inductive ApiResponse where
  | success200 (items : List RawItem) (totalCount : Nat)
  | successOther (status : Nat)
  | httpError (status : Nat) (message : String)
  | networkError (message : String)

/-- The page object returned by `fetchInventoryPage` on success. -/
structure PageResult where
  items : List RawItem
  totalCount : Nat
  hasMore : Bool
  currentStart : Nat

/-- Outcome of one `fetchInventoryPage` call: how long the function slept
before returning, and either the page or the thrown error message. -/
structure PageFetchOutcome where
  waitedMs : Nat
  result : Except String PageResult

/-- `fetchInventoryPage(start, maxResults)` from `sosApi.js`, as a function
of the remote response: on HTTP 429 it sleeps `THROTTLE_WAIT_MS` and then
throws a rate-limit error; on 401 it throws an authentication error; on any
other non-2xx it throws an API error; network errors are rethrown. -/
def fetchInventoryPage (start maxResults : Nat) (resp : ApiResponse) :
    PageFetchOutcome :=
  match resp with
  | .success200 items totalCount =>
    { waitedMs := 0
      result := .ok {
        items := items
        totalCount := totalCount
        hasMore := decide (start + maxResults < totalCount)
        currentStart := start } }
  | .successOther status =>
    { waitedMs := 0, result := .error ("Unexpected SOS API response: " ++ toString status) }
  | .httpError status message =>
    if status = 429 then
      { waitedMs := THROTTLE_WAIT_MS, result := .error ("SOS API rate limit: " ++ message) }
    else if status = 401 then
      { waitedMs := 0, result := .error "SOS API authentication failed - check API key" }
    else
      { waitedMs := 0
        result := .error ("SOS API error (" ++ toString status ++ "): " ++ message) }
  | .networkError message =>
    { waitedMs := 0, result := .error ("Network error connecting to SOS API: " ++ message) }

/-- Loop state of the `while (hasMore)` pagination loop of
`fetchProcessTransactions` in `processApi.js`: the next `start` offset and
the transactions accumulated so far. -/
structure TxLoopState where
  start : Nat
  allTransactions : List RawItem
deriving DecidableEq

/-- What one iteration of the `fetchProcessTransactions` loop does. -/
inductive TxStepResult where
  | again (next : TxLoopState)
  | done (allTransactions : List RawItem)
  | failed (message : String)
deriving DecidableEq

/-- One iteration of `fetchProcessTransactions`, as a function of the remote
response: on HTTP 429 it waits 30 seconds and `continue`s with the same
`start` (the same page); on any other non-2xx it throws; on a full page it
advances `start` by the page size and keeps going; on a short page it
finishes.  A 2xx response whose payload is not an array adds nothing and
ends the loop. -/
def fetchProcessTransactionsStep (st : TxLoopState) (resp : ApiResponse) :
    TxStepResult :=
  match resp with
  | .httpError status statusText =>
    if status = 429 then .again st
    else .failed ("SOS Process API error: " ++ toString status ++ " " ++ statusText)
  | .networkError message => .failed message
  | .successOther _ => .done st.allTransactions
  | .success200 items _ =>
    let txs := st.allTransactions ++ items
    if items.length = PAGE_SIZE then
      .again { start := st.start + PAGE_SIZE, allTransactions := txs }
    else .done txs

/-! ## Firestore writer (`modules/inventory/firestoreWriter.js`)

The document store is modelled by association lists keyed by document id.
Firestore `Timestamp` values are modelled by the `Nat` timestamp they were
created from. -/

/-- The active/archived lifecycle flag (`item_status`). -/
inductive LifeStatus where
  | active
  | archived
deriving DecidableEq, Repr

/-- A document of the `inventory/current/items` collection (also the shape
written into a snapshot's `data` subcollection).  It is the spread of a
processed item with `qty_*`/`average_cost` renamed to `onHand`, `available`,
`averageCost`, plus `item_status` and `last_updated`; `archived_at` is only
present on archived documents.  The `_raw_*` debug fields of the spread are
not modelled (no claim mentions them). -/
structure CurrentDoc where
  item_id : String
  sku : JVal
  name : JVal
  full_name : JVal
  onHand : ℚ
  available : ℚ
  averageCost : ℚ
  cost_basis : ℚ
  category : String
  status : InvStatus
  item_status : LifeStatus
  last_updated : Nat
  archived_at : Option Nat
deriving DecidableEq, Repr

/-- The category rule of the writer's transform:
`item.category && typeof item.category === 'string' ? item.category.trim() : 'Uncategorized'`
(a processed item's category is always a string, so only truthiness
matters). -/
def writerCategory (category : String) : String :=
  if category ≠ "" then jsTrim category else "Uncategorized"

/-- The `transformedItem` built per item inside `writeInventorySnapshot`
(`parseFloat(x) || 0` on a number field is the identity). -/
def transformItem (item : ProcessedItem) (ts : Nat) : CurrentDoc :=
  { item_id := item.item_id
    sku := item.sku
    name := item.name
    full_name := item.full_name
    onHand := item.qty_on_hand
    available := item.qty_available
    averageCost := item.average_cost
    cost_basis := item.cost_basis
    category := writerCategory item.category
    status := item.status
    item_status := .active
    last_updated := ts
    archived_at := none }

/-- A Firestore collection of documents, keyed by document id. -/
abbrev DocStore := List (String × CurrentDoc)

/-- `ref.set(doc)`: overwrite the document with this id, creating it when it
does not exist. -/
def setDoc (store : DocStore) (id : String) (doc : CurrentDoc) : DocStore :=
  if store.any (fun p => p.1 == id) then
    store.map (fun p => if p.1 == id then (id, doc) else p)
  else store ++ [(id, doc)]

/-- Read a document by id. -/
def lookupDoc (store : DocStore) (id : String) : Option CurrentDoc :=
  (store.find? (fun p => p.1 == id)).map Prod.snd

/-- The batch sizes produced by the archival loop: a batch is committed each
time the operation count reaches 450, and the remainder is committed last. -/
def archiveBatchSizes (n : Nat) : List Nat :=
  List.replicate (n / 450) 450 ++ (if n % 450 = 0 then [] else [n % 450])

/-- Everything `markCurrentItemsAsArchived` produces: the updated current
collection, the number of archival `update` writes issued, the committed
batch sizes, and the returned set of existing ids. -/
structure ArchiveOutcome where
  store : DocStore
  archiveWrites : Nat
  batchSizes : List Nat
  existingIds : List String
deriving DecidableEq, Repr

/-- The per-document archival update. -/
def archiveDoc (doc : CurrentDoc) (ts : Nat) : CurrentDoc :=
  { doc with item_status := .archived, archived_at := some ts }

/-- `markCurrentItemsAsArchived(newItems, timestamp)`: reads the current
collection; every existing document whose id is not among the new item ids
receives an `update` to archived status with an `archived_at` timestamp,
batched at 450 operations; documents whose id is in the new set are left
untouched.  Returns the set of existing ids. -/
def markCurrentItemsAsArchived (store : DocStore) (newItems : List ProcessedItem)
    (ts : Nat) : ArchiveOutcome :=
  if store.isEmpty then
    { store := store, archiveWrites := 0, batchSizes := [], existingIds := [] }
  else
    let newItemIds := newItems.map (·.item_id)
    let itemsToArchive := store.filter (fun p => !(newItemIds.contains p.1))
    { store := store.map (fun p =>
        if newItemIds.contains p.1 then p else (p.1, archiveDoc p.2 ts))
      archiveWrites := itemsToArchive.length
      batchSizes := archiveBatchSizes itemsToArchive.length
      existingIds := store.map Prod.fst }

/-- The `inventory/current` pointer document. -/
structure PointerDoc where
  last_updated : Nat
  item_count : Nat
deriving DecidableEq, Repr

/-- The `inventory/metadata` document. -/
structure MetadataDoc where
  last_updated : Nat
  last_snapshot : Nat
  total_item_count : Nat
  categories : List String
  status_summary : StatusCounts
deriving DecidableEq, Repr

/-- One `inventory/snapshots/<timestampId>` group: the `items` marker
document and the per-item `data` subcollection. -/
structure SnapshotRun where
  item_count : Nat
  timestamp : Nat
  data : DocStore
deriving DecidableEq, Repr

/-- The modelled slice of the whole store: the `current` items collection,
the three pointer/metadata documents, and the per-run snapshot groups. -/
structure SnapshotStore where
  current : DocStore := []
  currentPointer : Option PointerDoc := none
  snapshotsPointer : Option Nat := none
  metadata : Option MetadataDoc := none
  snapshots : List (String × SnapshotRun) := []
deriving DecidableEq, Repr

/-- `extractUniqueCategories`: first-occurrence de-duplication via a JS
`Set`, then sorted. -/
def extractUniqueCategories (items : List ProcessedItem) : List String :=
  let cats := items.foldl (fun acc item =>
    let c := if item.category ≠ "" ∧ jsTrim item.category ≠ "" then jsTrim item.category
             else "Uncategorized"
    if acc.contains c then acc else acc ++ [c]) []
  cats.mergeSort (fun a b => !(decide (b < a)))

/-- `formatTimestampForId`.  The source renders the date as ISO-8601 with
`:`/`.` replaced by `-`; no claim depends on the digits, so the model
renders the epoch value in decimal (nonempty, injective, whitespace-free,
like the original). -/
def formatTimestampForId (ts : Nat) : String := toString ts

/-- Fuelled helper for `chunksOf` (structural recursion on the fuel, so the
kernel can evaluate it; `chunksOf` supplies enough fuel). -/
def chunksOfAux {α : Type} (fuel n : Nat) (l : List α) : List (List α) :=
  match fuel with
  | 0 => []
  | fuel + 1 =>
    if l.isEmpty ∨ n = 0 then []
    else l.take n :: chunksOfAux fuel n (l.drop n)

/-- `items.slice(i, i + BATCH_SIZE)` chunking loop (the `n = 0` guard is a
termination artifact; the source always uses `BATCH_SIZE = 250`). -/
def chunksOf {α : Type} (n : Nat) (l : List α) : List (List α) :=
  chunksOfAux l.length n l

/-- The fields of the object `writeInventorySnapshot` resolves with. -/
structure WriteInfo where
  timestamp : Nat
  itemCount : Nat
  snapshotId : String
  batchCount : Nat
deriving DecidableEq, Repr

/-- An item id failing the chunk validation
`!item.item_id || typeof item.item_id !== 'string' || item.item_id.trim() === ''`. -/
def invalidItemId (item : ProcessedItem) : Bool :=
  item.item_id == "" || jsTrim item.item_id == ""

/-- Write the transformed documents of a list of items into a collection,
one `batch.set` per item, in order. -/
def writeItems (store : DocStore) (chunk : List ProcessedItem) (ts : Nat) : DocStore :=
  chunk.foldl (fun cur item => setDoc cur item.item_id (transformItem item ts)) store

/-- Write one chunk's documents: each item is written once into the
snapshot's `data` subcollection and once over the `current` view, inside one
atomic batch. -/
def applyChunk (st : SnapshotStore) (tsId : String) (ts : Nat)
    (chunk : List ProcessedItem) : SnapshotStore :=
  { st with
    snapshots := st.snapshots.map (fun p =>
      if p.1 == tsId then (p.1, { p.2 with data := writeItems p.2.data chunk ts }) else p)
    current := writeItems st.current chunk ts }

/-- The chunk loop of `writeInventorySnapshot`: validates every chunk before
committing it, aborts the run on the first invalid id (writes of earlier
chunks remain — no rollback), and records each committed batch's operation
count (two writes per item). -/
def writeChunks (st : SnapshotStore) (tsId : String) (ts : Nat) :
    List (List ProcessedItem) → SnapshotStore × List Nat × Option String
  | [] => (st, [], none)
  | chunk :: rest =>
    if chunk.any invalidItemId then
      (st, [], some "Invalid item IDs found in batch")
    else
      let st' := applyChunk st tsId ts chunk
      let r := writeChunks st' tsId ts rest
      (r.1, (chunk.length + chunk.length) :: r.2.1, r.2.2)

/-- Everything one `writeInventorySnapshot` run produces: the store after
the run (including writes that landed before a failure), the archival batch
sizes, the per-chunk batch operation counts, and the result or thrown
error. -/
structure WriteOutcome where
  store : SnapshotStore
  archiveBatchSizes : List Nat
  chunkBatchOps : List Nat
  result : Except String WriteInfo
deriving Repr

/-- `writeInventorySnapshot(processedData)` from `firestoreWriter.js`:
validates the timestamp id and the item list, runs the reconciler, upserts
the three pointer documents, creates the snapshot group, then writes the
items in chunks of `BATCH_SIZE`, each chunk one atomic batch writing every
item to both the snapshot subcollection and the current view. -/
def writeInventorySnapshot (st : SnapshotStore) (processed : ProcessOutcome)
    (ts : Nat) : WriteOutcome :=
  let items := processed.items
  let timestampId := formatTimestampForId ts
  if timestampId = "" ∨ jsTrim timestampId = "" then
    { store := st, archiveBatchSizes := [], chunkBatchOps := []
      result := .error "Invalid timestamp ID" }
  else if items.isEmpty then
    { store := st, archiveBatchSizes := [], chunkBatchOps := []
      result := .error "No items to process" }
  else
    let arch := markCurrentItemsAsArchived st.current items ts
    let st1 : SnapshotStore := {
      current := arch.store
      currentPointer := some { last_updated := ts, item_count := items.length }
      snapshotsPointer := some ts
      metadata := some {
        last_updated := ts
        last_snapshot := ts
        total_item_count := items.length
        categories := extractUniqueCategories items
        status_summary := processed.status_counts }
      snapshots := st.snapshots ++
        [(timestampId, { item_count := items.length, timestamp := ts, data := [] })] }
    let chunks := chunksOf BATCH_SIZE items
    let r := writeChunks st1 timestampId ts chunks
    { store := r.1
      archiveBatchSizes := arch.batchSizes
      chunkBatchOps := r.2.1
      result :=
        match r.2.2 with
        | some e => .error e
        | none => .ok {
            timestamp := ts
            itemCount := items.length
            snapshotId := timestampId
            batchCount := chunks.length } }

/-! ## Dashboard read path (`getCurrentInventoryData`) -/

/-- The summary computed on read. -/
structure ReadSummary where
  totalItems : Nat
  totalValue : ℚ
  categories : List String
  lowStockItems : Nat
  outOfStockItems : Nat
  negativeStockItems : Nat
  itemsWithIssues : Nat
deriving DecidableEq, Repr

/-- The `data` payload of `getCurrentInventoryData`. -/
structure ReadData where
  items : List (String × CurrentDoc)
  summary : ReadSummary
  lastUpdated : Option Nat
deriving DecidableEq, Repr

/-- The explicit empty-state shape. -/
def emptyReadData (lastUpdated : Option Nat) : ReadData :=
  { items := []
    summary := {
      totalItems := 0, totalValue := 0, categories := [], lowStockItems := 0
      outOfStockItems := 0, negativeStockItems := 0, itemsWithIssues := 0 }
    lastUpdated := lastUpdated }

/-- The source counts an item as "with issues" when its `status` field is
the string `error` or `warning`; the stored statuses are always the five
inventory statuses, so the comparison is never true. -/
def statusIsIssue (_ : InvStatus) : Bool := false

/-- `getCurrentInventoryData` (the version used by `functions/index.js`):
returns the empty shape while the pointer documents are missing, otherwise
reads ONLY the documents with `item_status == 'active'` and computes the
summary on read; each returned item carries its trimmed category. -/
def getCurrentInventoryData (st : SnapshotStore) : ReadData :=
  if st.currentPointer = none ∧ st.snapshotsPointer = none ∧ st.metadata = none then
    emptyReadData none
  else
    match st.currentPointer with
    | none => emptyReadData none
    | some _ =>
      match st.metadata with
      | none => emptyReadData none
      | some meta =>
        let activeDocs := st.current.filter (fun p => p.2.item_status == .active)
        if activeDocs.isEmpty then emptyReadData (some meta.last_updated)
        else
          let items := activeDocs.map (fun p =>
            (p.1, { p.2 with category := jsTrim p.2.category }))
          { items := items
            summary := {
              totalItems := items.length
              totalValue := (activeDocs.map (fun p => p.2.cost_basis)).sum
              categories :=
                ((items.foldl (fun acc p =>
                    if p.2.category ≠ "" ∧ ¬ acc.contains p.2.category then
                      acc ++ [p.2.category]
                    else acc) []).mergeSort (fun a b => !(decide (b < a))))
              lowStockItems := (activeDocs.filter (fun p =>
                decide (0 < p.2.available ∧ p.2.available ≤ 10))).length
              outOfStockItems := (activeDocs.filter (fun p =>
                decide (p.2.available ≤ 0))).length
              negativeStockItems := (activeDocs.filter (fun p =>
                decide (p.2.onHand < 0))).length
              itemsWithIssues := (activeDocs.filter (fun p =>
                statusIsIssue p.2.status)).length }
            lastUpdated := some meta.last_updated }

/-! ## Sample inputs used by the witnesses and counterexamples -/

/-- A fallback processed item (used only to name concrete sample outputs). -/
def dummyProcessedItem : ProcessedItem :=
  { item_id := "", sku := .jnull, name := .jnull, full_name := .jnull
    qty_on_hand := 0, qty_available := 0, cost_basis := 0, average_cost := 0
    category := "", status := .OK, last_updated := 0
    raw_onhand := none, raw_available := none, raw_costBasis := none
    raw_id := .jnull, raw_category := .jnull, id_source := .generated }

/-- Sample input for the C1 witness. -/
def c1Raw : RawItem :=
  { id := .jstr "123", onhand := some 10, available := some 8, costBasis := some 50 }

/-- The processed output of `c1Raw`. -/
def c1Item : ProcessedItem := (processInventoryItem c1Raw 0 "r").getD dummyProcessedItem

/-- Sample input for the C5 witness. -/
def c5Raw : RawItem := { id := .jstr "five", onhand := some (-2), costBasis := some 0 }

/-- The processed output of `c5Raw`. -/
def c5Item : ProcessedItem := (processInventoryItem c5Raw 0 "r").getD dummyProcessedItem

/-- A raw item with no category field at all. -/
def c9Raw : RawItem := { id := .jstr "widget" }

/-- The processed output of `c9Raw`. -/
def c9Item : ProcessedItem := (processInventoryItem c9Raw 0 "r").getD dummyProcessedItem

/-- A raw item whose source id is the string `"A"`. -/
def c10Raw : RawItem := { id := .jstr "A" }

/-- A raw item with no id and sku `"ABC"`. -/
def c10SkuRaw : RawItem := { sku := .jstr "ABC" }

/-- The processed output of `c10SkuRaw`. -/
def c10Item : ProcessedItem := (processInventoryItem c10SkuRaw 0 "r").getD dummyProcessedItem

/-- Sample input for the C7 witness: one null element, one element missing
both id and sku, one valid element. -/
def c7Input : List (Option RawItem) := [none, some {}, some c1Raw]

/-- The archival map used by `markCurrentItemsAsArchived`. -/
def archiveMapFun (newItemIds : List String) (ts : Nat)
    (p : String × CurrentDoc) : String × CurrentDoc :=
  if newItemIds.contains p.1 then p else (p.1, archiveDoc p.2 ts)

/-- The stored document used in the C2 counterexample. -/
def c2Doc : CurrentDoc :=
  { item_id := "old", sku := .jnull, name := .jnull, full_name := .jnull
    onHand := 0, available := 0, averageCost := 0, cost_basis := 0
    category := "", status := .OK, item_status := .active
    last_updated := 0, archived_at := none }

/-- A processed item with id `"a"`. -/
def c2NewItem : ProcessedItem := { dummyProcessedItem with item_id := "a" }

/-- The stored document used in the C3/C4 witnesses. -/
def c3Doc : CurrentDoc :=
  { item_id := "old", sku := .jnull, name := .jnull, full_name := .jnull
    onHand := 0, available := 0, averageCost := 0, cost_basis := 0
    category := "", status := .OK, item_status := .active
    last_updated := 0, archived_at := none }

/-- A processed item with id `"new"`. -/
def c3NewItem : ProcessedItem := { dummyProcessedItem with item_id := "new" }

/-- A store holding one current document `"old"`. -/
def c3Store : SnapshotStore := { current := [("old", c3Doc)] }

/-- A processed batch holding the single item `"new"`. -/
def c3Processed : ProcessOutcome :=
  { items := [c3NewItem], total_items := 1, total_value := 0
    status_counts := {}, invalid_items_count := 0 }

/-- The result of the sample write. -/
def c3Info : WriteInfo :=
  match (writeInventorySnapshot c3Store c3Processed 7).result with
  | .ok i => i
  | .error _ => { timestamp := 0, itemCount := 0, snapshotId := "", batchCount := 0 }

/-- A full chunk: 250 copies of one valid item. -/
def itemsFull : List ProcessedItem :=
  List.replicate BATCH_SIZE { dummyProcessedItem with item_id := "a" }

/-- A processed batch holding a full chunk of items. -/
def processedFull : ProcessOutcome :=
  { items := itemsFull, total_items := BATCH_SIZE, total_value := 0
    status_counts := {}, invalid_items_count := 0 }

/-! ## Lemmas about the record normalizer -/

/-- What `processInventoryItem` produces when it succeeds, field by field. -/
theorem processInventoryItem_some_spec (rawItem : RawItem) (timestamp : Nat)
    (rand : String) (item : ProcessedItem)
    (h : processInventoryItem rawItem timestamp rand = some item) :
    item.status = classifyStatus (parseNumOr0 rawItem.onhand)
        (parseNumOr0 rawItem.available) (parseNumOr0 rawItem.costBasis) ∧
    item.average_cost = averageCost (parseNumOr0 rawItem.onhand)
        (parseNumOr0 rawItem.costBasis) ∧
    item.category = deriveCategory rawItem.category ∧
    item.item_id = sanitizeId (deriveItemId rawItem timestamp rand) := by
  simp only [processInventoryItem] at h
  split at h
  · simp at h
  · cases h
    exact ⟨rfl, rfl, rfl, rfl⟩

/-- **C1.** For every raw item, `processInventoryItem` assigns exactly one of
the five statuses, by the first matching rule in priority order: on-hand < 0
gives NEGATIVE_QUANTITY; else available < 0 gives NEGATIVE_AVAILABLE; else
cost-basis < 0 gives NEGATIVE_VALUE; else on-hand > 0 and cost-basis ≤ 0
gives NO_COST_BASIS; else OK. -/
theorem status_classification_priority (rawItem : RawItem) (timestamp : Nat)
    (rand : String) (item : ProcessedItem)
    (h : processInventoryItem rawItem timestamp rand = some item) :
    (item.status = .NEGATIVE_QUANTITY ↔ parseNumOr0 rawItem.onhand < 0) ∧
    (item.status = .NEGATIVE_AVAILABLE ↔
      ¬ parseNumOr0 rawItem.onhand < 0 ∧ parseNumOr0 rawItem.available < 0) ∧
    (item.status = .NEGATIVE_VALUE ↔
      ¬ parseNumOr0 rawItem.onhand < 0 ∧ ¬ parseNumOr0 rawItem.available < 0 ∧
      parseNumOr0 rawItem.costBasis < 0) ∧
    (item.status = .NO_COST_BASIS ↔
      ¬ parseNumOr0 rawItem.onhand < 0 ∧ ¬ parseNumOr0 rawItem.available < 0 ∧
      ¬ parseNumOr0 rawItem.costBasis < 0 ∧
      (parseNumOr0 rawItem.onhand > 0 ∧ parseNumOr0 rawItem.costBasis ≤ 0)) ∧
    (item.status = .OK ↔
      ¬ parseNumOr0 rawItem.onhand < 0 ∧ ¬ parseNumOr0 rawItem.available < 0 ∧
      ¬ parseNumOr0 rawItem.costBasis < 0 ∧
      ¬ (parseNumOr0 rawItem.onhand > 0 ∧ parseNumOr0 rawItem.costBasis ≤ 0)) := by
  obtain ⟨hs, -, -, -⟩ := processInventoryItem_some_spec rawItem timestamp rand item h
  rw [hs]
  unfold classifyStatus
  split_ifs with h1 h2 h3 h4 <;> simp_all

/-- Witness for C1 at a concrete input. -/
theorem status_classification_priority_witness :
    (c1Item.status = .NEGATIVE_QUANTITY ↔ parseNumOr0 c1Raw.onhand < 0) ∧
    (c1Item.status = .NEGATIVE_AVAILABLE ↔
      ¬ parseNumOr0 c1Raw.onhand < 0 ∧ parseNumOr0 c1Raw.available < 0) ∧
    (c1Item.status = .NEGATIVE_VALUE ↔
      ¬ parseNumOr0 c1Raw.onhand < 0 ∧ ¬ parseNumOr0 c1Raw.available < 0 ∧
      parseNumOr0 c1Raw.costBasis < 0) ∧
    (c1Item.status = .NO_COST_BASIS ↔
      ¬ parseNumOr0 c1Raw.onhand < 0 ∧ ¬ parseNumOr0 c1Raw.available < 0 ∧
      ¬ parseNumOr0 c1Raw.costBasis < 0 ∧
      (parseNumOr0 c1Raw.onhand > 0 ∧ parseNumOr0 c1Raw.costBasis ≤ 0)) ∧
    (c1Item.status = .OK ↔
      ¬ parseNumOr0 c1Raw.onhand < 0 ∧ ¬ parseNumOr0 c1Raw.available < 0 ∧
      ¬ parseNumOr0 c1Raw.costBasis < 0 ∧
      ¬ (parseNumOr0 c1Raw.onhand > 0 ∧ parseNumOr0 c1Raw.costBasis ≤ 0)) :=
  status_classification_priority c1Raw 0 "r" c1Item rfl

/-- **C5.** For every raw item with on-hand > 0 and cost-basis > 0 the
processed `average_cost` is `cost_basis / qty_on_hand`, otherwise it is 0. -/
theorem average_cost_rule (rawItem : RawItem) (timestamp : Nat) (rand : String)
    (item : ProcessedItem)
    (h : processInventoryItem rawItem timestamp rand = some item) :
    (parseNumOr0 rawItem.onhand > 0 ∧ parseNumOr0 rawItem.costBasis > 0 →
      item.average_cost = parseNumOr0 rawItem.costBasis / parseNumOr0 rawItem.onhand) ∧
    (¬ (parseNumOr0 rawItem.onhand > 0 ∧ parseNumOr0 rawItem.costBasis > 0) →
      item.average_cost = 0) := by
  obtain ⟨-, ha, -, -⟩ := processInventoryItem_some_spec rawItem timestamp rand item h
  rw [ha]
  unfold averageCost
  constructor <;> intro hc <;> simp [hc]

/-- Witness for C5 at a concrete input. -/
theorem average_cost_rule_witness :
    (parseNumOr0 c5Raw.onhand > 0 ∧ parseNumOr0 c5Raw.costBasis > 0 →
      c5Item.average_cost = parseNumOr0 c5Raw.costBasis / parseNumOr0 c5Raw.onhand) ∧
    (¬ (parseNumOr0 c5Raw.onhand > 0 ∧ parseNumOr0 c5Raw.costBasis > 0) →
      c5Item.average_cost = 0) :=
  average_cost_rule c5Raw 0 "r" c5Item rfl

/-- **C9 counterexample.** The claim says a missing category yields
`"Uncategorized"` in the processed item; on a raw item without a category
the processed item's category is the empty string. -/
theorem category_missing_counterexample :
    (processInventoryItem c9Raw 0 "r").map (fun p => p.category) = some "" ∧
    ("" : String) ≠ "Uncategorized" := ⟨rfl, by decide⟩

/-- **C9 (amended).** A missing/falsy raw category yields the empty string
in the processed item, which the snapshot writer's transform then persists
as `"Uncategorized"`; a truthy value that is neither string nor number
becomes `"Uncategorized"` directly; a truthy number is stringified; a truthy
string is kept trimmed. -/
theorem category_rule (rawItem : RawItem) (timestamp : Nat) (rand : String)
    (item : ProcessedItem)
    (h : processInventoryItem rawItem timestamp rand = some item) :
    (rawItem.category.truthy = false →
      item.category = "" ∧ writerCategory item.category = "Uncategorized") ∧
    (∀ s, rawItem.category = .jstr s → s ≠ "" → item.category = jsTrim s) ∧
    (∀ q, rawItem.category = .jnum q → q ≠ 0 → item.category = jsNumToString q) ∧
    (rawItem.category = .jobj → item.category = "Uncategorized") := by
  obtain ⟨-, -, hc, -⟩ := processInventoryItem_some_spec rawItem timestamp rand item h
  rw [hc]
  refine ⟨fun hf => ?_, fun s hs hne => ?_, fun q hq hne => ?_, fun ho => ?_⟩
  · simp [deriveCategory, hf, writerCategory]
  · simp [deriveCategory, hs, JVal.truthy, hne]
  · simp [deriveCategory, hq, JVal.truthy, hne]
  · simp [deriveCategory, ho, JVal.truthy]

/-- Witness for the amended C9 at a concrete input. -/
theorem category_rule_witness :
    (c9Raw.category.truthy = false →
      c9Item.category = "" ∧ writerCategory c9Item.category = "Uncategorized") ∧
    (∀ s, c9Raw.category = .jstr s → s ≠ "" → c9Item.category = jsTrim s) ∧
    (∀ q, c9Raw.category = .jnum q → q ≠ 0 → c9Item.category = jsNumToString q) ∧
    (c9Raw.category = .jobj → c9Item.category = "Uncategorized") :=
  category_rule c9Raw 0 "r" c9Item rfl

/-- **C10 counterexample.** Two raw items with the same source id are both
returned by one `processInventoryItems` run with the same `item_id`:
uniqueness is not enforced. -/
theorem duplicate_identifier_counterexample :
    (processInventoryItems (.arr [some c10Raw, some c10Raw]) 0
        (fun _ => "r")).toOption.map (fun out => out.items.map (fun p => p.item_id)) =
      some ["A", "A"] ∧
    ¬ (["A", "A"] : List String).Nodup := ⟨rfl, by decide⟩

/-- **C10 (amended).** Every assigned identifier contains only characters in
`[A-Za-z0-9_-]`, and a SKU-derived identifier begins with `sku_`; but
identifier uniqueness within one run is not enforced (see the
counterexample). -/
theorem identifier_shape (rawItem : RawItem) (timestamp : Nat) (rand : String)
    (item : ProcessedItem)
    (h : processInventoryItem rawItem timestamp rand = some item) :
    (∀ c ∈ item.item_id.data, isIdChar c = true) ∧
    (trimmedStr? rawItem.id = none → ∀ s, trimmedStr? rawItem.sku = some s →
      ∃ t, item.item_id = "sku_" ++ t) := by
  obtain ⟨-, -, -, hid⟩ := processInventoryItem_some_spec rawItem timestamp rand item h
  rw [hid]
  constructor
  · intro c hc
    simp only [sanitizeId] at hc
    obtain ⟨x, -, rfl⟩ := List.mem_map.mp hc
    unfold sanitizeChar
    split
    · assumption
    · decide
  · intro hid0 s hsku
    unfold deriveItemId
    rw [hid0, hsku]
    refine ⟨String.mk (s.data.map sanitizeChar), ?_⟩
    show String.mk ((("sku_" ++ s).data).map sanitizeChar) = _
    rw [String.data_append, List.map_append]
    rfl

/-- Witness for the amended C10 at a concrete input. -/
theorem identifier_shape_witness :
    (∀ c ∈ c10Item.item_id.data, isIdChar c = true) ∧
    (trimmedStr? c10SkuRaw.id = none → ∀ s, trimmedStr? c10SkuRaw.sku = some s →
      ∃ t, c10Item.item_id = "sku_" ++ t) :=
  identifier_shape c10SkuRaw 0 "r" c10Item rfl

/-- The loop of `processInventoryItems` returns, in order, exactly the
elements that process successfully. -/
theorem processLoop_items (timestamp : Nat) (rand : Nat → String) :
    ∀ (xs : List (Option RawItem)) (i : Nat),
      (processLoop timestamp rand xs i).1 =
        (xs.enumFrom i).filterMap (fun p => processElement timestamp (rand p.1) p.2) := by
  intro xs
  induction xs with
  | nil => intro i; simp [processLoop]
  | cons o rest ih =>
    intro i
    rw [List.enumFrom_cons, List.filterMap_cons]
    simp only [processLoop]
    cases hpe : processElement timestamp (rand i) o <;> simp [hpe, ih (i + 1)]

/-- Every loop element lands either in the processed list or in the invalid
count. -/
theorem processLoop_invalid_count (timestamp : Nat) (rand : Nat → String) :
    ∀ (xs : List (Option RawItem)) (i : Nat),
      (processLoop timestamp rand xs i).2.2 + (processLoop timestamp rand xs i).1.length =
        xs.length := by
  intro xs
  induction xs with
  | nil => intro i; simp [processLoop]
  | cons o rest ih =>
    intro i
    have hrec := ih (i + 1)
    simp only [processLoop]
    cases hpe : processElement timestamp (rand i) o <;>
      simp [hpe, List.length_cons] <;> omega

/-- **C7.** `processInventoryItems` throws on a non-array input, on an empty
input array (with a "no items to process" error rather than a silent empty
result), and when every individual item fails processing; on every other
input it returns the successfully processed subset together with a count of
the invalid items. -/
theorem process_items_error_contract (timestamp : Nat) (rand : Nat → String)
    (xs : List (Option RawItem)) :
    processInventoryItems .notArray timestamp rand = .error "Expected array of items" ∧
    processInventoryItems (.arr []) timestamp rand = .error "No items to process" ∧
    (xs ≠ [] → processedOf timestamp rand xs = [] →
      processInventoryItems (.arr xs) timestamp rand =
        .error "No valid items were processed") ∧
    (processedOf timestamp rand xs ≠ [] →
      ∃ out, processInventoryItems (.arr xs) timestamp rand = .ok out ∧
        out.items = processedOf timestamp rand xs ∧
        out.invalid_items_count + out.items.length = xs.length) := by
  have hitems := processLoop_items timestamp rand xs 0
  have hcount := processLoop_invalid_count timestamp rand xs 0
  refine ⟨rfl, rfl, fun hne hempty => ?_, fun hsome => ?_⟩
  · cases xs with
    | nil => exact absurd rfl hne
    | cons o rest =>
      simp only [processInventoryItems]
      rw [if_pos]
      rw [hitems]
      exact hempty
  · cases xs with
    | nil => exact absurd (by rfl) hsome
    | cons o rest =>
      simp only [processInventoryItems]
      rw [if_neg]
      · exact ⟨_, rfl, hitems, by simpa using hcount⟩
      · rw [hitems]; exact hsome

/-- Witness for C7 at a concrete input (the success case of the contract,
with its hypothesis discharged by evaluation). -/
theorem process_items_error_contract_witness :
    ∃ out, processInventoryItems (.arr c7Input) 0 (fun _ => "r") = .ok out ∧
      out.items = processedOf 0 (fun _ => "r") c7Input ∧
      out.invalid_items_count + out.items.length = c7Input.length :=
  (process_items_error_contract 0 (fun _ => "r") c7Input).2.2.2 (by decide)

/-- **C6.** What the fetchers do on rate limiting: `fetchInventoryPage`
sleeps the fixed throttle interval on HTTP 429 but then THROWS a rate-limit
error to its caller (no retry); HTTP 401 and other non-2xx statuses fail
immediately.  Only the process-transactions loop retries the same page after
a 429. -/
theorem rate_limit_behaviour :
    (fetchInventoryPage 0 PAGE_SIZE (.httpError 429 "Too Many Requests")).waitedMs =
      THROTTLE_WAIT_MS ∧
    (fetchInventoryPage 0 PAGE_SIZE (.httpError 429 "Too Many Requests")).result =
      .error "SOS API rate limit: Too Many Requests" ∧
    (fetchInventoryPage 0 PAGE_SIZE (.httpError 401 "Unauthorized")).result =
      .error "SOS API authentication failed - check API key" ∧
    (fetchInventoryPage 0 PAGE_SIZE (.httpError 500 "Server Error")).result =
      .error "SOS API error (500): Server Error" ∧
    (∀ (st : TxLoopState) (m : String),
      fetchProcessTransactionsStep st (.httpError 429 m) = .again st) :=
  ⟨rfl, rfl, rfl, rfl, fun _ _ => rfl⟩

/-! ## Lemmas about the document store -/

theorem find?_setDoc_map (store : DocStore) (id : String) (doc : CurrentDoc) :
    List.find? (fun p => p.1 == id)
        (store.map (fun p => if p.1 == id then (id, doc) else p)) =
      if store.any (fun p => p.1 == id) then some (id, doc)
      else List.find? (fun p => p.1 == id) store := by
  induction store with
  | nil => rfl
  | cons q s ih =>
    simp only [List.map_cons, List.any_cons]
    by_cases hq : q.1 = id
    · have hb : (q.1 == id) = true := by simp [hq]
      rw [if_pos hb, List.find?_cons_of_pos _ (by simp)]
      simp [hb]
    · have hb : (q.1 == id) = false := by simp [hq]
      rw [if_neg (by simp [hb]), List.find?_cons_of_neg _ (by simp [hb]),
        List.find?_cons_of_neg _ (by simp [hb]), ih]
      simp only [hb, Bool.false_or]

theorem lookupDoc_setDoc_self (store : DocStore) (id : String) (doc : CurrentDoc) :
    lookupDoc (setDoc store id doc) id = some doc := by
  unfold setDoc lookupDoc
  split
  case isTrue hany => rw [find?_setDoc_map, if_pos hany]; rfl
  case isFalse hany =>
    rw [List.find?_append]
    have hnone : List.find? (fun p => p.1 == id) store = none := by
      rw [List.find?_eq_none]
      intro x hx hpx
      exact hany (List.any_eq_true.mpr ⟨x, hx, hpx⟩)
    simp [hnone, List.find?]

theorem find?_map_keyfun (store : DocStore) (id : String)
    (g : String × CurrentDoc → String × CurrentDoc) (hg : ∀ p, (g p).1 = p.1) :
    List.find? (fun p => p.1 == id) (store.map g) =
      (List.find? (fun p => p.1 == id) store).map g := by
  induction store with
  | nil => rfl
  | cons q s ih =>
    simp only [List.map_cons, List.find?, hg q]
    cases hq : (q.1 == id) <;> simp [ih]

theorem find?_map_setDoc_ne (store : DocStore) (id id' : String)
    (doc : CurrentDoc) (h : id' ≠ id) :
    List.find? (fun p => p.1 == id')
        (store.map (fun p => if p.1 == id then (id, doc) else p)) =
      List.find? (fun p => p.1 == id') store := by
  induction store with
  | nil => rfl
  | cons q s ih =>
    simp only [List.map_cons]
    by_cases hq : q.1 = id
    · have hb : (q.1 == id) = true := by simp [hq]
      rw [if_pos hb]
      have hq' : (q.1 == id') = false := by
        simp only [beq_eq_false_iff_ne, ne_eq, hq]
        exact fun he => h he.symm
      have hid' : ((id : String) == id') = false := by
        simp only [beq_eq_false_iff_ne, ne_eq]
        exact fun he => h he.symm
      rw [List.find?_cons_of_neg _ (by simp [hid']),
        List.find?_cons_of_neg _ (by simp [hq']), ih]
    · have hb : (q.1 == id) = false := by simp [hq]
      rw [if_neg (by simp [hb])]
      by_cases hq' : q.1 = id'
      · have hb1 : (fun p : String × CurrentDoc => p.1 == id') q = true := by
          simp [hq']
        rw [@List.find?_cons_of_pos _ (fun p : String × CurrentDoc => p.1 == id') q _ hb1,
          @List.find?_cons_of_pos _ (fun p : String × CurrentDoc => p.1 == id') q _ hb1]
      · have hb' : (q.1 == id') = false := by simp [hq']
        rw [List.find?_cons_of_neg _ (by simp [hb']),
          List.find?_cons_of_neg _ (by simp [hb']), ih]

theorem lookupDoc_setDoc_other (store : DocStore) (id id' : String)
    (doc : CurrentDoc) (h : id' ≠ id) :
    lookupDoc (setDoc store id doc) id' = lookupDoc store id' := by
  unfold setDoc lookupDoc
  split
  case isTrue hany => rw [find?_map_setDoc_ne _ _ _ _ h]
  case isFalse hany =>
    rw [List.find?_append]
    have h1 : ((id : String) == id') = false := by
      simp only [beq_eq_false_iff_ne, ne_eq]
      exact fun he => h he.symm
    cases hfs : List.find? (fun p => p.1 == id') store <;>
      simp [hfs, List.find?, h1]

@[simp] theorem writeItems_nil (store : DocStore) (ts : Nat) :
    writeItems store [] ts = store := rfl

@[simp] theorem writeItems_cons (store : DocStore) (a : ProcessedItem)
    (rest : List ProcessedItem) (ts : Nat) :
    writeItems store (a :: rest) ts =
      writeItems (setDoc store a.item_id (transformItem a ts)) rest ts := rfl

theorem writeItems_append (store : DocStore) (l1 l2 : List ProcessedItem) (ts : Nat) :
    writeItems store (l1 ++ l2) ts = writeItems (writeItems store l1 ts) l2 ts :=
  List.foldl_append _ _ _ _

theorem lookupDoc_writeItems_not_mem (ts : Nat) :
    ∀ (chunk : List ProcessedItem) (store : DocStore) (id : String),
      id ∉ chunk.map (fun it => it.item_id) →
      lookupDoc (writeItems store chunk ts) id = lookupDoc store id := by
  intro chunk
  induction chunk with
  | nil => intro store id _; rfl
  | cons a rest ih =>
    intro store id h
    simp only [List.map_cons, List.mem_cons, not_or] at h
    rw [writeItems_cons, ih _ _ h.2, lookupDoc_setDoc_other _ _ _ _ h.1]

theorem lookupDoc_writeItems_mem (ts : Nat) :
    ∀ (chunk : List ProcessedItem) (store : DocStore) (id : String),
      id ∈ chunk.map (fun it => it.item_id) →
      ∃ it, it ∈ chunk ∧ it.item_id = id ∧
        lookupDoc (writeItems store chunk ts) id = some (transformItem it ts) := by
  intro chunk
  induction chunk with
  | nil => intro store id h; simp at h
  | cons a rest ih =>
    intro store id h
    rw [writeItems_cons]
    by_cases hm : id ∈ rest.map (fun it => it.item_id)
    · obtain ⟨it, hmem, hid, hl⟩ := ih _ id hm
      exact ⟨it, List.mem_cons_of_mem _ hmem, hid, hl⟩
    · have hid : a.item_id = id := by
        simp only [List.map_cons, List.mem_cons] at h
        rcases h with h | h
        · exact h.symm
        · exact absurd h hm
      subst hid
      exact ⟨a, List.mem_cons_self _ _, rfl,
        by rw [lookupDoc_writeItems_not_mem ts rest _ _ hm, lookupDoc_setDoc_self]⟩

theorem archiveMapFun_key (newItemIds : List String) (ts : Nat)
    (p : String × CurrentDoc) : (archiveMapFun newItemIds ts p).1 = p.1 := by
  unfold archiveMapFun
  split <;> rfl

theorem mark_store_eq (store : DocStore) (newItems : List ProcessedItem) (ts : Nat)
    (h : store ≠ []) :
    (markCurrentItemsAsArchived store newItems ts).store =
      store.map (archiveMapFun (newItems.map (·.item_id)) ts) := by
  unfold markCurrentItemsAsArchived
  rw [if_neg (by simp [List.isEmpty_iff, h])]
  rfl

theorem mark_archiveWrites_eq (store : DocStore) (newItems : List ProcessedItem)
    (ts : Nat) (h : store ≠ []) :
    (markCurrentItemsAsArchived store newItems ts).archiveWrites =
      (store.filter
        (fun p => !((newItems.map (·.item_id)).contains p.1))).length := by
  unfold markCurrentItemsAsArchived
  rw [if_neg (by simp [List.isEmpty_iff, h])]

theorem mark_lookup_absent (store : DocStore) (newItems : List ProcessedItem)
    (ts : Nat) (id : String) (doc : CurrentDoc)
    (hl : lookupDoc store id = some doc)
    (hid : id ∉ newItems.map (fun it => it.item_id)) :
    lookupDoc (markCurrentItemsAsArchived store newItems ts).store id =
      some (archiveDoc doc ts) := by
  have hne : store ≠ [] := by
    intro he
    subst he
    simp [lookupDoc] at hl
  rw [mark_store_eq store newItems ts hne]
  unfold lookupDoc at hl ⊢
  rw [find?_map_keyfun _ _ _ (archiveMapFun_key _ ts)]
  obtain ⟨q, hq, hsnd⟩ : ∃ q, List.find? (fun p => p.1 == id) store = some q ∧ q.2 = doc := by
    cases hfs : List.find? (fun p => p.1 == id) store with
    | none => rw [hfs] at hl; simp at hl
    | some q => rw [hfs] at hl; exact ⟨q, rfl, by simpa using hl⟩
  have hkey : q.1 = id := by
    have := List.find?_some hq
    simpa [beq_iff_eq] using this
  have hcont : (newItems.map (·.item_id)).contains q.1 = false := by
    rw [hkey]
    rw [List.contains_eq_any_beq]
    simp only [List.any_eq_false]
    intro x hx
    simp only [beq_iff_eq]
    intro he
    exact hid (he ▸ hx)
  rw [hq]
  show some ((archiveMapFun (newItems.map (·.item_id)) ts q).2) =
    some (archiveDoc doc ts)
  unfold archiveMapFun
  rw [hcont]
  simp [hsnd]

theorem filter_map_of_pred (store : DocStore)
    (g : String × CurrentDoc → String × CurrentDoc)
    (pred : String × CurrentDoc → Bool) (hpred : ∀ p, pred (g p) = pred p) :
    (store.map g).filter pred = (store.filter pred).map g := by
  induction store with
  | nil => rfl
  | cons q s ih =>
    simp only [List.map_cons, List.filter_cons, hpred q]
    cases hq : pred q <;> simp [ih]

theorem archiveMapFun_idem (newItemIds : List String) (ts : Nat)
    (p : String × CurrentDoc) :
    archiveMapFun newItemIds ts (archiveMapFun newItemIds ts p) =
      archiveMapFun newItemIds ts p := by
  unfold archiveMapFun
  by_cases hc : newItemIds.contains p.1 = true
  · rw [if_pos hc, if_pos hc]
  · rw [if_neg hc]
    rw [if_neg
      (show ¬ (newItemIds.contains (p.1, archiveDoc p.2 ts).1 = true) from hc)]
    rfl

/-- **C2 (amended).** Running `markCurrentItemsAsArchived` twice with the
same new-item set and timestamp leaves the store unchanged after the second
run (state idempotence), but the second run performs exactly the same
archival update writes as the first — one per stored document whose id is
absent from the new set, already-archived documents included — not zero. -/
theorem reconcile_second_run (store : DocStore) (newItems : List ProcessedItem)
    (ts : Nat) :
    (markCurrentItemsAsArchived (markCurrentItemsAsArchived store newItems ts).store
        newItems ts).archiveWrites =
      (markCurrentItemsAsArchived store newItems ts).archiveWrites ∧
    (markCurrentItemsAsArchived (markCurrentItemsAsArchived store newItems ts).store
        newItems ts).store =
      (markCurrentItemsAsArchived store newItems ts).store := by
  by_cases hne : store = []
  · subst hne
    exact ⟨rfl, rfl⟩
  · have hmap := mark_store_eq store newItems ts hne
    have hne2 : (markCurrentItemsAsArchived store newItems ts).store ≠ [] := by
      rw [hmap]
      simpa using hne
    constructor
    · rw [mark_archiveWrites_eq _ _ _ hne2, mark_archiveWrites_eq _ _ _ hne, hmap]
      rw [filter_map_of_pred _ _ _
        (fun p => by rw [archiveMapFun_key (newItems.map (·.item_id)) ts p])]
      rw [List.length_map]
    · rw [mark_store_eq _ newItems ts hne2, hmap, List.map_map]
      apply List.map_congr_left
      intro p _
      exact archiveMapFun_idem _ ts p

/-- **C2 counterexample.** With one stored item absent from the new set, the
second reconciliation run re-issues the archival update: it performs 1
archival write, not 0. -/
theorem reconcile_second_run_counterexample :
    (markCurrentItemsAsArchived
        (markCurrentItemsAsArchived [("old", c2Doc)] [c2NewItem] 5).store
        [c2NewItem] 5).archiveWrites = 1 ∧ (1 : Nat) ≠ 0 :=
  ⟨by decide, by decide⟩

/-! ## Lemmas about chunking and the snapshot writer -/

theorem chunksOfAux_join {α : Type} (n : Nat) (hn : n ≠ 0) :
    ∀ (fuel : Nat) (l : List α), l.length ≤ fuel →
      (chunksOfAux fuel n l).flatten = l := by
  intro fuel
  induction fuel with
  | zero =>
    intro l hl
    have : l = [] := List.length_eq_zero.mp (Nat.le_zero.mp hl)
    subst this
    rfl
  | succ fuel ih =>
    intro l hl
    rw [chunksOfAux]
    split
    case isTrue h =>
      rcases h with h | h
      · rw [List.isEmpty_iff.mp h]
        rfl
      · exact absurd h hn
    case isFalse h =>
      rw [List.flatten_cons, ih (l.drop n) ?_, List.take_append_drop]
      have hnil : l ≠ [] := by
        intro he
        exact h (Or.inl (List.isEmpty_iff.mpr he))
      have hlen : 1 ≤ l.length := by
        rcases l with _ | ⟨a, l⟩
        · exact absurd rfl hnil
        · simp
      rw [List.length_drop]
      omega

theorem chunksOf_join {α : Type} (n : Nat) (hn : n ≠ 0) (l : List α) :
    (chunksOf n l).flatten = l :=
  chunksOfAux_join n hn l.length l (Nat.le_refl _)

theorem chunksOfAux_length_le {α : Type} (n : Nat) :
    ∀ (fuel : Nat) (l : List α) (c : List α), c ∈ chunksOfAux fuel n l →
      c.length ≤ n := by
  intro fuel
  induction fuel with
  | zero => intro l c hc; simp [chunksOfAux] at hc
  | succ fuel ih =>
    intro l c hc
    rw [chunksOfAux] at hc
    split at hc
    · simp at hc
    · rcases List.mem_cons.mp hc with h | h
      · subst h
        rw [List.length_take]
        exact min_le_left _ _
      · exact ih _ _ h

theorem chunksOf_length_le {α : Type} (n : Nat) (l : List α) (c : List α)
    (hc : c ∈ chunksOf n l) : c.length ≤ n :=
  chunksOfAux_length_le n l.length l c hc

theorem writeChunks_ok_spec (tsId : String) (ts : Nat) :
    ∀ (chunks : List (List ProcessedItem)) (st : SnapshotStore),
      (writeChunks st tsId ts chunks).2.2 = none →
      (writeChunks st tsId ts chunks).1.current =
        writeItems st.current chunks.flatten ts ∧
      (writeChunks st tsId ts chunks).1.currentPointer = st.currentPointer ∧
      (writeChunks st tsId ts chunks).1.metadata = st.metadata ∧
      (writeChunks st tsId ts chunks).1.snapshotsPointer = st.snapshotsPointer := by
  intro chunks
  induction chunks with
  | nil => intro st _; exact ⟨rfl, rfl, rfl, rfl⟩
  | cons chunk rest ih =>
    intro st h
    rw [writeChunks] at h ⊢
    by_cases hv : chunk.any invalidItemId = true
    · rw [if_pos hv] at h
      simp at h
    · rw [if_neg hv] at h ⊢
      obtain ⟨h1, h2, h3, h4⟩ := ih (applyChunk st tsId ts chunk) (by exact h)
      refine ⟨?_, ?_, ?_, ?_⟩
      · show (writeChunks (applyChunk st tsId ts chunk) tsId ts rest).1.current = _
        rw [h1, List.flatten_cons, writeItems_append]
        rfl
      · show (writeChunks (applyChunk st tsId ts chunk) tsId ts rest).1.currentPointer = _
        rw [h2]
        rfl
      · show (writeChunks (applyChunk st tsId ts chunk) tsId ts rest).1.metadata = _
        rw [h3]
        rfl
      · show (writeChunks (applyChunk st tsId ts chunk) tsId ts rest).1.snapshotsPointer = _
        rw [h4]
        rfl

theorem writeChunks_ops (tsId : String) (ts : Nat) :
    ∀ (chunks : List (List ProcessedItem)) (st : SnapshotStore) (b : Nat),
      b ∈ (writeChunks st tsId ts chunks).2.1 →
      ∃ c ∈ chunks, b = c.length + c.length := by
  intro chunks
  induction chunks with
  | nil => intro st b hb; simp [writeChunks] at hb
  | cons chunk rest ih =>
    intro st b hb
    rw [writeChunks] at hb
    by_cases hv : chunk.any invalidItemId = true
    · rw [if_pos hv] at hb
      simp at hb
    · rw [if_neg hv] at hb
      have hb' : b ∈ (chunk.length + chunk.length) ::
          (writeChunks (applyChunk st tsId ts chunk) tsId ts rest).2.1 := hb
      rcases List.mem_cons.mp hb' with h | h
      · exact ⟨chunk, List.mem_cons_self _ _, h⟩
      · obtain ⟨c, hc, hbc⟩ := ih (applyChunk st tsId ts chunk) b h
        exact ⟨c, List.mem_cons_of_mem _ hc, hbc⟩

/-- What a successful `writeInventorySnapshot` guarantees about the store it
leaves behind. -/
theorem writeSnapshot_ok_spec (st : SnapshotStore) (processed : ProcessOutcome)
    (ts : Nat) (info : WriteInfo)
    (h : (writeInventorySnapshot st processed ts).result = .ok info) :
    processed.items ≠ [] ∧
    (writeInventorySnapshot st processed ts).store.current =
      writeItems (markCurrentItemsAsArchived st.current processed.items ts).store
        processed.items ts ∧
    (writeInventorySnapshot st processed ts).store.currentPointer =
      some { last_updated := ts, item_count := processed.items.length } ∧
    (writeInventorySnapshot st processed ts).store.metadata =
      some { last_updated := ts, last_snapshot := ts
             total_item_count := processed.items.length
             categories := extractUniqueCategories processed.items
             status_summary := processed.status_counts } := by
  simp only [writeInventorySnapshot] at h ⊢
  by_cases hts : formatTimestampForId ts = "" ∨ jsTrim (formatTimestampForId ts) = ""
  · rw [if_pos hts] at h
    simp at h
  · rw [if_neg hts] at h ⊢
    by_cases hemp : processed.items.isEmpty = true
    · rw [if_pos hemp] at h
      simp at h
    · rw [if_neg hemp] at h ⊢
      have hne : processed.items ≠ [] := by
        intro he
        exact hemp (by simp [List.isEmpty_iff, he])
      cases heq : (writeChunks
          { current := (markCurrentItemsAsArchived st.current processed.items ts).store
            currentPointer := some { last_updated := ts, item_count := processed.items.length }
            snapshotsPointer := some ts
            metadata := some {
              last_updated := ts
              last_snapshot := ts
              total_item_count := processed.items.length
              categories := extractUniqueCategories processed.items
              status_summary := processed.status_counts }
            snapshots := st.snapshots ++
              [(formatTimestampForId ts,
                { item_count := processed.items.length, timestamp := ts, data := [] })] }
          (formatTimestampForId ts) ts (chunksOf BATCH_SIZE processed.items)).2.2 with
      | some e => rw [heq] at h; simp at h
      | none =>
        obtain ⟨h1, h2, h3, h4⟩ := writeChunks_ok_spec (formatTimestampForId ts) ts
          (chunksOf BATCH_SIZE processed.items) _ heq
        refine ⟨hne, ?_, ?_, ?_⟩
        · rw [h1, chunksOf_join BATCH_SIZE (by decide) processed.items]
        · rw [h2]
        · rw [h3]

/-- **C3.** After a successful `writeInventorySnapshot`: every id stored in
the current view but absent from the new item set is still present (not
deleted) as an archived record with `archived_at` set to the run timestamp;
and every item of the new set unconditionally overwrites its current record
with an active document — including a previously archived one, since the
prior state of that record is irrelevant. -/
theorem snapshot_reconciliation (st : SnapshotStore) (processed : ProcessOutcome)
    (ts : Nat) (info : WriteInfo)
    (h : (writeInventorySnapshot st processed ts).result = .ok info) :
    (∀ id doc, lookupDoc st.current id = some doc →
      id ∉ processed.items.map (fun it => it.item_id) →
      lookupDoc (writeInventorySnapshot st processed ts).store.current id =
        some (archiveDoc doc ts) ∧
      (archiveDoc doc ts).item_status = .archived ∧
      (archiveDoc doc ts).archived_at = some ts) ∧
    (∀ item ∈ processed.items, ∃ it, it ∈ processed.items ∧
      it.item_id = item.item_id ∧
      lookupDoc (writeInventorySnapshot st processed ts).store.current item.item_id =
        some (transformItem it ts) ∧
      (transformItem it ts).item_status = .active ∧
      (transformItem it ts).archived_at = none) := by
  obtain ⟨hne, hcur, -, -⟩ := writeSnapshot_ok_spec st processed ts info h
  constructor
  · intro id doc hl hid
    refine ⟨?_, rfl, rfl⟩
    rw [hcur, lookupDoc_writeItems_not_mem ts _ _ _ hid]
    exact mark_lookup_absent st.current processed.items ts id doc hl hid
  · intro item hmem
    have hidmem : item.item_id ∈ processed.items.map (fun it => it.item_id) :=
      List.mem_map.mpr ⟨item, hmem, rfl⟩
    obtain ⟨it, hit, hid, hl⟩ := lookupDoc_writeItems_mem ts processed.items
      (markCurrentItemsAsArchived st.current processed.items ts).store
      item.item_id hidmem
    refine ⟨it, hit, hid, ?_, rfl, rfl⟩
    rw [hcur]
    exact hl

/-- Witness for C3 at a concrete input. -/
theorem snapshot_reconciliation_witness :
    (∀ id doc, lookupDoc c3Store.current id = some doc →
      id ∉ c3Processed.items.map (fun it => it.item_id) →
      lookupDoc (writeInventorySnapshot c3Store c3Processed 7).store.current id =
        some (archiveDoc doc 7) ∧
      (archiveDoc doc 7).item_status = .archived ∧
      (archiveDoc doc 7).archived_at = some 7) ∧
    (∀ item ∈ c3Processed.items, ∃ it, it ∈ c3Processed.items ∧
      it.item_id = item.item_id ∧
      lookupDoc (writeInventorySnapshot c3Store c3Processed 7).store.current item.item_id =
        some (transformItem it 7) ∧
      (transformItem it 7).item_status = .active ∧
      (transformItem it 7).archived_at = none) :=
  snapshot_reconciliation c3Store c3Processed 7 c3Info rfl

/-- **C4.** After a successful `writeInventorySnapshot`, reading the current
view back returns exactly the stored documents whose lifecycle flag is
active (each with its category trimmed), and the returned summary's total
value is the sum of the cost-basis fields of the returned items. -/
theorem read_after_write (st : SnapshotStore) (processed : ProcessOutcome)
    (ts : Nat) (info : WriteInfo)
    (h : (writeInventorySnapshot st processed ts).result = .ok info) :
    (getCurrentInventoryData (writeInventorySnapshot st processed ts).store).items =
      ((writeInventorySnapshot st processed ts).store.current.filter
        (fun p => p.2.item_status == .active)).map
        (fun p => (p.1, { p.2 with category := jsTrim p.2.category })) ∧
    (getCurrentInventoryData
        (writeInventorySnapshot st processed ts).store).summary.totalValue =
      ((getCurrentInventoryData
        (writeInventorySnapshot st processed ts).store).items.map
          (fun p => p.2.cost_basis)).sum := by
  obtain ⟨hne, hcur, hcp, hmeta⟩ := writeSnapshot_ok_spec st processed ts info h
  obtain ⟨item, hitem⟩ : ∃ x, x ∈ processed.items :=
    List.exists_mem_of_ne_nil _ hne
  have hidmem : item.item_id ∈ processed.items.map (fun it => it.item_id) :=
    List.mem_map.mpr ⟨item, hitem, rfl⟩
  obtain ⟨it, hit, hid, hl⟩ := lookupDoc_writeItems_mem ts processed.items
    (markCurrentItemsAsArchived st.current processed.items ts).store
    item.item_id hidmem
  have hl' : lookupDoc (writeInventorySnapshot st processed ts).store.current
      item.item_id = some (transformItem it ts) := by
    rw [hcur]
    exact hl
  obtain ⟨q, hq, hsndq⟩ : ∃ q,
      List.find? (fun p => p.1 == item.item_id)
        (writeInventorySnapshot st processed ts).store.current = some q ∧
      q.2 = transformItem it ts := by
    unfold lookupDoc at hl'
    cases hfs : List.find? (fun p => p.1 == item.item_id)
        (writeInventorySnapshot st processed ts).store.current with
    | none => rw [hfs] at hl'; simp at hl'
    | some q => rw [hfs] at hl'; exact ⟨q, rfl, by simpa using hl'⟩
  have hqmem : q ∈ (writeInventorySnapshot st processed ts).store.current :=
    List.mem_of_find?_eq_some hq
  have hactive : (q.2.item_status == LifeStatus.active) = true := by
    rw [hsndq]
    rfl
  have hmemfilter : q ∈ (writeInventorySnapshot st processed ts).store.current.filter
      (fun p => p.2.item_status == .active) :=
    List.mem_filter.mpr ⟨hqmem, hactive⟩
  have hfne : ((writeInventorySnapshot st processed ts).store.current.filter
      (fun p => p.2.item_status == .active)).isEmpty ≠ true := by
    intro he
    rw [List.isEmpty_iff] at he
    rw [he] at hmemfilter
    simp at hmemfilter
  simp only [getCurrentInventoryData, hcp, hmeta]
  rw [if_neg (by simp)]
  rw [if_neg hfne]
  refine ⟨rfl, ?_⟩
  rw [List.map_map]
  rfl

/-- Witness for C4 at a concrete input. -/
theorem read_after_write_witness :
    (getCurrentInventoryData (writeInventorySnapshot c3Store c3Processed 7).store).items =
      ((writeInventorySnapshot c3Store c3Processed 7).store.current.filter
        (fun p => p.2.item_status == .active)).map
        (fun p => (p.1, { p.2 with category := jsTrim p.2.category })) ∧
    (getCurrentInventoryData
        (writeInventorySnapshot c3Store c3Processed 7).store).summary.totalValue =
      ((getCurrentInventoryData
        (writeInventorySnapshot c3Store c3Processed 7).store).items.map
          (fun p => p.2.cost_basis)).sum :=
  read_after_write c3Store c3Processed 7 c3Info rfl

/-- Every archival batch holds at most 450 update operations. -/
theorem mark_batchSizes_bound (store : DocStore) (newItems : List ProcessedItem)
    (ts : Nat) :
    ∀ b ∈ (markCurrentItemsAsArchived store newItems ts).batchSizes,
      b ≤ 450 ∧ b < 500 := by
  intro b hb
  unfold markCurrentItemsAsArchived at hb
  split at hb
  · simp at hb
  · have hb' : b ∈ archiveBatchSizes
        ((store.filter
          (fun p => !((newItems.map (·.item_id)).contains p.1))).length) := hb
    unfold archiveBatchSizes at hb'
    rcases List.mem_append.mp hb' with h | h
    · have := List.eq_of_mem_replicate h
      omega
    · split at h
      · simp at h
      · simp only [List.mem_singleton] at h
        subst h
        have := Nat.mod_lt
          ((store.filter
            (fun p => !((newItems.map (·.item_id)).contains p.1))).length)
          (show 0 < 450 by omega)
        omega

/-- **C8 (amended).** Every archival batch of a snapshot run holds at most
450 operations, strictly below the store's 500-operation ceiling; every
per-chunk item batch holds `2 × (chunk size) ≤ 500` operations — a full
chunk of 250 items reaches exactly the 500-operation ceiling, not strictly
below it. -/
theorem batch_size_bounds (st : SnapshotStore) (processed : ProcessOutcome)
    (ts : Nat) :
    (∀ b ∈ (writeInventorySnapshot st processed ts).archiveBatchSizes,
      b ≤ 450 ∧ b < 500) ∧
    (∀ b ∈ (writeInventorySnapshot st processed ts).chunkBatchOps, b ≤ 500) := by
  simp only [writeInventorySnapshot]
  by_cases hts : formatTimestampForId ts = "" ∨ jsTrim (formatTimestampForId ts) = ""
  · rw [if_pos hts]
    constructor <;> intro b hb <;> simp at hb
  · rw [if_neg hts]
    by_cases hemp : processed.items.isEmpty = true
    · rw [if_pos hemp]
      constructor <;> intro b hb <;> simp at hb
    · rw [if_neg hemp]
      constructor
      · intro b hb
        exact mark_batchSizes_bound st.current processed.items ts b hb
      · intro b hb
        obtain ⟨c, hc, hbc⟩ := writeChunks_ops (formatTimestampForId ts) ts
          (chunksOf BATCH_SIZE processed.items) _ b hb
        have hlen := chunksOf_length_le BATCH_SIZE processed.items c hc
        subst hbc
        unfold BATCH_SIZE at hlen
        omega

/-- Witness for the amended C8 at a concrete input (one archival batch of 1
update, one chunk batch of 2 operations). -/
theorem batch_size_bounds_witness :
    ((1 : Nat) ≤ 450 ∧ (1 : Nat) < 500) ∧ (2 : Nat) ≤ 500 :=
  ⟨(batch_size_bounds c3Store c3Processed 7).1 1 (by decide),
   (batch_size_bounds c3Store c3Processed 7).2 2 (by decide)⟩

set_option maxRecDepth 10000 in
/-- **C8 counterexample.** With a full chunk of 250 items the single item
batch holds exactly 500 operations, which is NOT strictly fewer than the
500-operation ceiling. -/
theorem chunk_batch_at_ceiling_counterexample :
    (writeInventorySnapshot {} processedFull 0).chunkBatchOps = [500] ∧
    ¬ ((500 : Nat) < 500) := ⟨by decide, by decide⟩

end Chaeban
